import Mathlib

/-!
Verification development for the CodeCompass query/indexing runtime.

Shallow embedding of the Rust sources:
- `crates/codecompass-query/src/intent.rs` (query intent classification)
- `crates/codecompass-mcp/src/server.rs` (ref resolution, freshness oracle,
  metadata building, tool compatibility errors, index orchestration)
- `crates/codecompass-mcp/src/server/tool_calls/shared.rs` (dedup,
  ranking-reason alignment, payload safety limit)
- `crates/codecompass-state/src/symbols.rs` and `branch_state.rs`
  (relational store adapters, modelled as list-backed tables)

External collaborators that the sources call but whose code is not in the
provided tree (the VCS probe `codecompass_core::vcs`, the job/project store
adapters `codecompass_state::jobs` / `codecompass_state::project`, and the
protocol metadata type `crate::protocol::ProtocolMetadata`) are modelled from
the specification; each such definition carries a doc comment saying so.
-/

/-! ## String helpers (List Char based, mirroring Rust `str` operations) -/

/-- `needle.isPrefix hay` on raw character lists (Rust `str::starts_with`). -/
def listIsPre : List Char → List Char → Bool
  | [], _ => true
  | _ :: _, [] => false
  | a :: as, b :: bs => a == b && listIsPre as bs

/-- Substring test on raw character lists (Rust `str::contains(&str)`). -/
def listHasSub (needle : List Char) : List Char → Bool
  | [] => listIsPre needle []
  | c :: rest => listIsPre needle (c :: rest) || listHasSub needle rest

/-- Rust `str::contains(char)`. -/
def strContainsChar (s : String) (c : Char) : Bool :=
  s.data.any (fun x => x == c)

/-- Rust `str::contains(&str)`. -/
def strContainsSub (s : String) (needle : String) : Bool :=
  listHasSub needle.data s.data

/-- Rust `str::ends_with(&str)`. -/
def strEndsWith (s : String) (suffix : String) : Bool :=
  listIsPre suffix.data.reverse s.data.reverse

/-- Rust `str::trim`: strip leading and trailing whitespace. -/
def strTrim (s : String) : String :=
  String.mk (((s.data.dropWhile Char.isWhitespace).reverse.dropWhile
    Char.isWhitespace).reverse)

/-- Rust `str::to_lowercase` (ASCII scope). -/
def strToLower (s : String) : String :=
  String.mk (s.data.map Char.toLower)

/-- Worker for `splitWhitespace`: `acc` is the reversed current token. -/
def splitWsAux : List Char → List Char → List String
  | [], acc => if acc.isEmpty then [] else [String.mk acc.reverse]
  | c :: rest, acc =>
    if c.isWhitespace then
      if acc.isEmpty then splitWsAux rest []
      else String.mk acc.reverse :: splitWsAux rest []
    else splitWsAux rest (c :: acc)

/-- Rust `str::split_whitespace`: whitespace-separated tokens, no empties. -/
def splitWhitespace (s : String) : List String :=
  splitWsAux s.data []

/-! ## Query intent classification (`codecompass-query/src/intent.rs`) -/

/-- `QueryIntent` from `codecompass-core` (closed enumeration, spec section 9). -/
inductive QueryIntent where
  | Path
  | Error
  | Symbol
  | NaturalLanguage
deriving DecidableEq

/-- Extension list from `is_path_query` in `intent.rs`. -/
def known_extensions : List String :=
  [".rs", ".ts", ".tsx", ".js", ".jsx", ".py", ".go", ".java", ".c", ".h",
   ".cpp", ".rb", ".swift"]

/-- `is_path_query` from `intent.rs`: path separators or a known extension. -/
def is_path_query (query : String) : Bool :=
  strContainsChar query '/' || strContainsChar query '\\' ||
    known_extensions.any (fun ext => strEndsWith query ext)

/-- Error-pattern list from `is_error_query` in `intent.rs`.
The final pattern is `thread '` (trailing single quote), built via
`Char.ofNat 39` for the quote character. -/
def error_patterns : List String :=
  ["error:", "Error:", "panic:", "FATAL", "exception", "Exception",
   "traceback", "at line", String.mk ['t', 'h', 'r', 'e', 'a', 'd', ' ', Char.ofNat 39]]

/-- `is_error_query` from `intent.rs`: quotes or stack-trace patterns.
The single-quote character is `Char.ofNat 39`. -/
def is_error_query (query : String) : Bool :=
  strContainsChar query '"' || strContainsChar query (Char.ofNat 39) ||
    error_patterns.any (fun pat => strContainsSub query pat)

/-- Kind-keyword list from `is_symbol_query` in `intent.rs`. -/
def kind_keywords : List String :=
  ["fn", "func", "function", "struct", "class", "enum", "trait", "interface",
   "type", "const", "method"]

/-- `is_symbol_query` from `intent.rs`. A single word is a symbol when it has
an uppercase character after the first (`word.len() > 1`, byte length), an
underscore, `::` or a non-path dot, or is all alphanumeric-or-underscore of
byte length above 2; a two-word query is a symbol when the first word is a
kind keyword. -/
def is_symbol_query (query : String) : Bool :=
  let words := splitWhitespace query
  match words with
  | [word] =>
    (decide (1 < word.utf8ByteSize) && (word.data.drop 1).any Char.isUpper)
    || strContainsChar word '_'
    || (strContainsSub word "::" || (strContainsChar word '.' && !is_path_query word))
    || (word.data.all (fun c => c.isAlphanum || c == '_') && decide (2 < word.utf8ByteSize))
  | [w1, _w2] => kind_keywords.contains (strToLower w1)
  | _ => false

/-- `classify_intent` from `intent.rs`: trims, then Path, Error, Symbol,
NaturalLanguage in that order. -/
def classify_intent (query : String) : QueryIntent :=
  let trimmed := strTrim query
  if is_path_query trimmed then QueryIntent.Path
  else if is_error_query trimmed then QueryIntent.Error
  else if is_symbol_query trimmed then QueryIntent.Symbol
  else QueryIntent.NaturalLanguage

/-- The symbol rule exactly as the claim words it: a single word with interior
uppercase, underscore, `::`, a non-path dot, or all-alphanumeric of length
above 2; or a two-word form whose first token is a kind keyword. -/
def symbol_rule_spec (query : String) : Bool :=
  let words := splitWhitespace query
  (words.length == 1 &&
    (let w := words.headD ""
     (decide (1 < w.utf8ByteSize) && (w.data.drop 1).any Char.isUpper)
     || strContainsChar w '_'
     || strContainsSub w "::"
     || (strContainsChar w '.' && !is_path_query w)
     || (w.data.all (fun c => c.isAlphanum) && decide (2 < w.utf8ByteSize))))
  || (words.length == 2 && kind_keywords.contains (strToLower (words.headD "")))

/-- `classify_intent` as the claim words it: precedence Path, then Error, then
Symbol, then NaturalLanguage, with the Path and Error conditions spelled out. -/
def classify_intent_spec (query : String) : QueryIntent :=
  let t := strTrim query
  if strContainsChar t '/' || strContainsChar t '\\' ||
      known_extensions.any (fun ext => strEndsWith t ext) then QueryIntent.Path
  else if strContainsChar t '"' || strContainsChar t (Char.ofNat 39) ||
      error_patterns.any (fun pat => strContainsSub t pat) then QueryIntent.Error
  else if symbol_rule_spec t then QueryIntent.Symbol
  else QueryIntent.NaturalLanguage

/-! ## Data model: schema gating, metadata, store rows -/

/-- `SchemaStatus` from `codecompass-core` types (spec section 4.B): the four
classification states of the index loader. -/
inductive SchemaStatus where
  | Compatible
  | NotIndexed
  | ReindexRequired
  | CorruptManifest
deriving DecidableEq

/-- `FreshnessStatus` from `codecompass-core` types (spec section 4.G). -/
inductive FreshnessStatus where
  | Fresh
  | Stale
  | Unknown
deriving DecidableEq

/-- Modelled from the spec: `ProtocolMetadata` lives in
`crates/codecompass-mcp/src/protocol.rs`, which is not among the provided
sources. Fields per spec section 4.G: protocol version `"1.0"`, `ref`,
`index_status` in `{compatible, not_indexed, reindex_required,
corrupt_manifest}`, `freshness_status`, `active_job`. -/
structure ProtocolMetadata where
  codecompass_protocol_version : String
  ref : String
  index_status : String
  freshness_status : FreshnessStatus
  active_job : Bool
deriving DecidableEq

/-- Modelled from the spec: `ProtocolMetadata::new` (compatible index). -/
def ProtocolMetadata.protoNew (r : String) : ProtocolMetadata :=
  { codecompass_protocol_version := "1.0", ref := r, index_status := "compatible",
    freshness_status := FreshnessStatus.Fresh, active_job := false }

/-- Modelled from the spec: `ProtocolMetadata::not_indexed`. -/
def ProtocolMetadata.not_indexed (r : String) : ProtocolMetadata :=
  { codecompass_protocol_version := "1.0", ref := r, index_status := "not_indexed",
    freshness_status := FreshnessStatus.Unknown, active_job := false }

/-- Modelled from the spec: `ProtocolMetadata::reindex_required`. -/
def ProtocolMetadata.reindex_required (r : String) : ProtocolMetadata :=
  { codecompass_protocol_version := "1.0", ref := r, index_status := "reindex_required",
    freshness_status := FreshnessStatus.Unknown, active_job := false }

/-- Modelled from the spec: `ProtocolMetadata::corrupt_manifest`. -/
def ProtocolMetadata.corrupt_manifest (r : String) : ProtocolMetadata :=
  { codecompass_protocol_version := "1.0", ref := r, index_status := "corrupt_manifest",
    freshness_status := FreshnessStatus.Unknown, active_job := false }

/-- Modelled from the spec: `ProtocolMetadata::with_active_job`. -/
def ProtocolMetadata.with_active_job (m : ProtocolMetadata) (b : Bool) : ProtocolMetadata :=
  { m with active_job := b }

/-- `BranchState` row from `codecompass-state/src/branch_state.rs`.
`repo` holds the project id, `ref` the branch name. -/
structure BranchState where
  repo : String
  ref : String
  merge_base_commit : Option String
  last_indexed_commit : String
  overlay_dir : Option String
  file_count : Int
  created_at : String
  last_accessed_at : String
deriving DecidableEq

/-- `Project` row (spec section 3): only the fields the embedded server
functions read. -/
structure Project where
  project_id : String
  repo_root : String
  default_ref : String
deriving DecidableEq

/-- `IndexJob` row (spec section 3): only the fields the embedded server
functions read. -/
structure IndexJob where
  job_id : String
  mode : String
  status : String
  ref : String
deriving DecidableEq

/-- Modelled from the spec: the store reads the server performs through an
open SQLite connection. `codecompass_state::db`, `::jobs` and `::project`
are not among the provided sources, so the connection is a record of query
results: `branchStates` backs `branch_state::get_branch_state` (which is in
the sources and is embedded below as a list lookup), `activeJob` is the
result of `jobs::get_active_job(project_id)` (first non-terminal job, spec
section 4.A), `projectByRoot` the result of `project::get_by_root(workspace)`
and `projectById` the result of `project::get_by_id(project_id)`. -/
structure ConnInfo where
  branchStates : List BranchState
  activeJob : Option IndexJob
  projectByRoot : Option Project
  projectById : Option Project
deriving DecidableEq

/-- Modelled from the spec: the per-request environment. `conn` is the
optional SQLite connection (`open_connection(..).ok()` in `run_server`);
`headBranch` and `headCommit` are the results of
`codecompass_core::vcs::detect_head_branch` / `detect_head_commit` on the
workspace — VCS probing is declared out of scope by spec section 1, so a
failed probe is `none`. -/
structure Env where
  conn : Option ConnInfo
  headBranch : Option String
  headCommit : Option String
deriving DecidableEq

/-- `get_branch_state` from `branch_state.rs`: point lookup of the row keyed
by `(repo, ref)` (SQL `WHERE repo = ?1 AND ref = ?2`). -/
def get_branch_state (rows : List BranchState) (repo r : String) : Option BranchState :=
  rows.find? (fun b => b.repo == repo && b.ref == r)

/-! ## Server helpers (`codecompass-mcp/src/server.rs`) -/

/-- `has_active_job` from `server.rs`: `conn.and_then(get_active_job).is_some()`. -/
def has_active_job (env : Env) (_project_id : String) : Bool :=
  (env.conn.bind (fun c => c.activeJob)).isSome

/-- `is_project_registered` from `server.rs`:
`conn.and_then(project::get_by_root(workspace)).is_some()`. -/
def is_project_registered (env : Env) : Bool :=
  (env.conn.bind (fun c => c.projectByRoot)).isSome

/-- `is_ref_stale` from `server.rs` lines 221-245: requires an open
connection, a `BranchState` row for `(project_id, ref)`, a detected HEAD
branch equal to `ref`, and a detected HEAD commit; stale iff the last indexed
commit differs from the HEAD commit. Every failure short-circuits to
`false`. -/
def is_ref_stale (env : Env) (project_id r : String) : Bool :=
  match env.conn with
  | none => false
  | some c =>
    match get_branch_state c.branchStates project_id r with
    | none => false
    | some branch_state =>
      match env.headBranch with
      | none => false
      | some head_branch =>
        if head_branch ≠ r then false
        else
          match env.headCommit with
          | none => false
          | some head_commit => branch_state.last_indexed_commit != head_commit

/-- `resolve_tool_ref` from `server.rs` lines 263-282: explicit `ref`
argument, else VCS HEAD branch, else a non-empty (after trim) project
`default_ref`, else the literal `"live"` (`constants::REF_LIVE`). -/
def resolve_tool_ref (requested_ref : Option String) (env : Env)
    (project_id : String) : String :=
  match requested_ref with
  | some r => r
  | none =>
    match env.headBranch with
    | some branch => branch
    | none =>
      match env.conn with
      | some c =>
        match c.projectById with
        | some project =>
          if (strTrim project.default_ref).isEmpty then "live" else project.default_ref
        | none => "live"
      | none => "live"

/-- `build_metadata` from `server.rs` lines 199-219: per-status constructors;
for a compatible schema, `active_job` from `has_active_job`, and
`freshness_status` forced to `Stale` only when there is no active job and
`is_ref_stale` holds. -/
def build_metadata (r : String) (schema_status : SchemaStatus) (env : Env)
    (project_id : String) : ProtocolMetadata :=
  match schema_status with
  | SchemaStatus.NotIndexed => ProtocolMetadata.not_indexed r
  | SchemaStatus.ReindexRequired => ProtocolMetadata.reindex_required r
  | SchemaStatus.CorruptManifest => ProtocolMetadata.corrupt_manifest r
  | SchemaStatus.Compatible =>
    let active := has_active_job env project_id
    let metadata := (ProtocolMetadata.protoNew r).with_active_job active
    if active = false ∧ is_ref_stale env project_id r = true then
      { metadata with freshness_status := FreshnessStatus.Stale }
    else metadata

/-- The error payload placed in MCP tool text by `tool_error_response`
(`server.rs` lines 682-701): `error.code`, `error.message`, the optional
`data` fields the handlers populate, and the `metadata` object. -/
structure ToolErrorPayload where
  code : String
  message : String
  data_remediation : Option String
  data_reason : Option String
  data_workspace : Option String
  metadata : ProtocolMetadata
deriving DecidableEq

/-- The remediation string keyed by the loader's classification, as in
`tool_compatibility_error` (`server.rs` lines 655-661). -/
def loader_remediation (schema_status : SchemaStatus) : String :=
  match schema_status with
  | SchemaStatus.NotIndexed => "codecompass index"
  | SchemaStatus.ReindexRequired => "codecompass index --force"
  | SchemaStatus.CorruptManifest => "codecompass index --force"
  | SchemaStatus.Compatible => "codecompass index"

/-- `tool_compatibility_error` from `server.rs` lines 632-680 (the params
variant in `tool_calls/shared.rs` lines 41-92 has the same body): when the
schema is `NotIndexed` and no project is registered for the workspace, a
`project_not_found` error; otherwise an `index_incompatible` error whose
remediation and message are keyed by the schema status and whose `data`
carries the loader's classification `reason`. -/
def tool_compatibility_error (schema_status : SchemaStatus)
    (compatibility_reason : Option String) (env : Env)
    (workspace project_id ref_name : String) : ToolErrorPayload :=
  let metadata := build_metadata ref_name schema_status env project_id
  if schema_status = SchemaStatus.NotIndexed ∧ is_project_registered env = false then
    { code := "project_not_found",
      message := "Project is not initialized for this workspace. Run `codecompass init` first.",
      data_remediation := some "codecompass init --path <workspace>",
      data_reason := none,
      data_workspace := some workspace,
      metadata := metadata }
  else
    let remediation :=
      match schema_status with
      | SchemaStatus.NotIndexed => "codecompass index"
      | SchemaStatus.ReindexRequired => "codecompass index --force"
      | SchemaStatus.CorruptManifest => "codecompass index --force"
      | SchemaStatus.Compatible => "codecompass index"
    let message :=
      match schema_status with
      | SchemaStatus.NotIndexed => "No index available. Run `codecompass index`."
      | SchemaStatus.ReindexRequired => "Index is incompatible. Run `codecompass index --force`."
      | SchemaStatus.CorruptManifest => "Index is incompatible. Run `codecompass index --force`."
      | SchemaStatus.Compatible => "Index is unavailable."
    { code := "index_incompatible",
      message := message,
      data_remediation := some remediation,
      data_reason := compatibility_reason,
      data_workspace := none,
      metadata := metadata }

/-- The compatibility gate shared by `locate_symbol` and `search_code`
(`server.rs` lines 320-342 and 391-413): with no open index set, or with a
schema status other than `Compatible`, the handler returns
`tool_compatibility_error`; otherwise it proceeds to the query engine. -/
def query_tool_gate (has_index_set : Bool) (schema_status : SchemaStatus)
    (compatibility_reason : Option String) (env : Env)
    (workspace project_id ref_name : String) : Option ToolErrorPayload :=
  if has_index_set = false then
    some (tool_compatibility_error schema_status compatibility_reason env
      workspace project_id ref_name)
  else if schema_status ≠ SchemaStatus.Compatible then
    some (tool_compatibility_error schema_status compatibility_reason env
      workspace project_id ref_name)
  else none

/-! ## Indexing orchestrator (`server.rs` lines 514-598, `index_tools.rs`) -/

/-- Lowercase hex digit, as produced by Rust `format!("{:x}")`. -/
def hexDigitChar (n : Nat) : Char :=
  if n < 10 then Char.ofNat (48 + n) else Char.ofNat (87 + n)

/-- Hex-digit test (digits and lowercase `a`-`f`). -/
def isHexDigit (c : Char) : Bool :=
  c.isDigit || (decide ('a' ≤ c) && decide (c ≤ 'f'))

/-- `format!("{:016x}", rand_u64())` from `server.rs` line 553: the random
`u64` rendered as exactly 16 zero-padded lowercase hex characters. The
random draw is abstracted as the `seed` argument, reduced mod `2^64`. -/
def job_id_hex (seed : Nat) : String :=
  let v := seed % (2 ^ 64)
  String.mk ((List.range 16).map (fun i => hexDigitChar (v / 16 ^ (15 - i) % 16)))

/-- The indexer child process command built by the orchestrator: argument
vector and the `CODECOMPASS_JOB_ID` environment variable. -/
structure IndexSpawnCmd where
  args : List String
  env_job_id : String
deriving DecidableEq

/-- Result of an `index_repo` / `sync_repo` tool call: a tool error payload,
or a success payload `{job_id, status, mode, metadata}` together with the
spawned command. -/
inductive IndexToolOutcome where
  | errorResp (p : ToolErrorPayload)
  | success (job_id status mode : String) (cmd : IndexSpawnCmd)
      (metadata : ProtocolMetadata)
deriving DecidableEq

/-- `index_repo` / `sync_repo` handling from `server.rs` lines 514-598
(`handle_index_or_sync` in `index_tools.rs` is the same logic): `mode` from
`force`, ref resolution and metadata, then in order the registered-project
and active-job preconditions, then job id computation and child spawn with
`CODECOMPASS_JOB_ID`. The random draw and the spawn result are abstracted as
`seed` and `spawn_ok`. -/
def handle_index_or_sync (_tool_name : String) (force_arg : Option Bool)
    (requested_ref : Option String) (env : Env) (workspace project_id : String)
    (schema_status : SchemaStatus) (seed : Nat) (spawn_ok : Bool) :
    IndexToolOutcome :=
  let force := force_arg.getD false
  let mode := if force then "full" else "incremental"
  let effective_ref := resolve_tool_ref requested_ref env project_id
  let metadata := build_metadata effective_ref schema_status env project_id
  if is_project_registered env = false then
    IndexToolOutcome.errorResp
      { code := "project_not_found",
        message := "Project is not initialized for this workspace. Run `codecompass init` first.",
        data_remediation := some "codecompass init --path <workspace>",
        data_reason := none,
        data_workspace := some workspace,
        metadata := metadata }
  else if has_active_job env project_id = true then
    IndexToolOutcome.errorResp
      { code := "index_in_progress",
        message := "An indexing job is already running.",
        data_remediation := some "Use index_status to poll and retry after completion.",
        data_reason := none,
        data_workspace := none,
        metadata := metadata }
  else
    let job_id := job_id_hex seed
    let cmd : IndexSpawnCmd :=
      { args := ["index", "--path", workspace]
          ++ (if force then ["--force"] else []) ++ ["--ref", effective_ref],
        env_job_id := job_id }
    if spawn_ok then
      IndexToolOutcome.success job_id "running" mode cmd metadata
    else
      IndexToolOutcome.errorResp
        { code := "internal_error",
          message := "Failed to spawn indexer process.",
          data_remediation := some "Run `codecompass index` manually to inspect logs.",
          data_reason := none,
          data_workspace := none,
          metadata := metadata }

/-! ## Payload safety limit (`tool_calls/shared.rs` lines 331-362) -/

/-- `DEFAULT_MAX_RESPONSE_BYTES` from `tool_calls.rs` line 52. -/
def DEFAULT_MAX_RESPONSE_BYTES : Nat := 64 * 1024

/-- The loop of `enforce_payload_safety_limit`: `used` starts at 2 for the
enclosing brackets, each item costs its serialized byte size
(`serde_json::to_vec(..).len()`, abstracted as `itemSize`) plus a one-byte
separator when the output is non-empty; the first item that would push
`used` past `maxB` stops the loop with `truncated = true`. -/
def enforce_go {α : Type} (itemSize : α → Nat) (maxB : Nat) :
    List α → Nat → Bool → List α × Bool
  | [], _, _ => ([], false)
  | item :: rest, used, isFirst =>
    let item_size := itemSize item
    let separator := if isFirst then 0 else 1
    if maxB < used + separator + item_size then ([], true)
    else
      let r := enforce_go itemSize maxB rest (used + separator + item_size) false
      (item :: r.1, r.2)

/-- `enforce_payload_safety_limit` from `tool_calls/shared.rs` lines 331-362:
a zero byte budget is replaced by `DEFAULT_MAX_RESPONSE_BYTES`; then the
loop above; an empty output with the truncated flag is returned as
`([], true)`. -/
def enforce_payload_safety_limit {α : Type} (itemSize : α → Nat)
    (results : List α) (max_bytes : Nat) : List α × Bool :=
  let maxB := if max_bytes == 0 then DEFAULT_MAX_RESPONSE_BYTES else max_bytes
  let r := enforce_go itemSize maxB results 2 true
  if r.1.isEmpty && r.2 then ([], true) else r

/-- Total JSON byte count of a serialised result list: item sizes plus one
separator byte between consecutive items (the quantity the claims bound);
zero for the empty list. -/
def list_json_size {α : Type} (itemSize : α → Nat) (l : List α) : Nat :=
  (l.map itemSize).sum + (l.length - 1)

/-! ## Search-result dedup and ranking alignment (`tool_calls/shared.rs`) -/

/-- `SearchResult` from `codecompass-query` search results, with the fields
`dedup_search_results` reads (the `f32` relevance `score` is omitted:
floating point is outside the embedding and the dedup key never reads it). -/
structure SearchResult where
  result_id : String
  symbol_id : Option String
  symbol_stable_id : Option String
  result_type : String
  path : String
  line_start : Nat
  line_end : Nat
  kind : Option String
  name : Option String
  qualified_name : Option String
  language : String
  signature : Option String
  visibility : Option String
  snippet : Option String
deriving DecidableEq

/-- `RankingReasons` from `codecompass-core` types: `result_index` plus the
per-component score breakdown, abstracted into `detail` (the components are
`f32` floats, which the alignment code only clones). -/
structure RankingReasons (β : Type) where
  result_index : Nat
  detail : β
deriving DecidableEq

/-- The dedup key built in `dedup_search_results` (`shared.rs` lines
265-278): `format!("stable:{}", id)` for a present non-empty
`symbol_stable_id`, else
`format!("{}:{}:{}:{}:{}", result_type, path, line_start, line_end, name)`
with a missing name rendered as the empty string. -/
def search_result_key (r : SearchResult) : String :=
  match r.symbol_stable_id with
  | some stable_id =>
    if stable_id ≠ "" then "stable:" ++ stable_id
    else r.result_type ++ ":" ++ r.path ++ ":" ++ toString r.line_start ++ ":"
      ++ toString r.line_end ++ ":" ++ (r.name.getD "")
  | none =>
    r.result_type ++ ":" ++ r.path ++ ":" ++ toString r.line_start ++ ":"
      ++ toString r.line_end ++ ":" ++ (r.name.getD "")

/-- The loop of `dedup_search_results`: `seen` is the key set, `i` the
enumeration index; a fresh key keeps the result and records its original
index, a seen key bumps `suppressed`. -/
def dedup_go (seen : List String) (i : Nat) :
    List SearchResult → List SearchResult × List Nat × Nat
  | [] => ([], [], 0)
  | r :: rest =>
    let key := search_result_key r
    if key ∈ seen then
      let t := dedup_go seen (i + 1) rest
      (t.1, t.2.1, t.2.2 + 1)
    else
      let t := dedup_go (key :: seen) (i + 1) rest
      (r :: t.1, i :: t.2.1, t.2.2)

/-- `dedup_search_results` from `shared.rs` lines 256-287: returns the
deduplicated results, the kept original indices, and the suppressed count. -/
def dedup_search_results (results : List SearchResult) :
    List SearchResult × List Nat × Nat :=
  dedup_go [] 0 results

/-- The loop of `align_ranking_reasons_to_dedup`: `i` is the new index
(enumeration over `kept_indices`); a kept index outside `reasons` is
skipped, otherwise the reason row is kept with `result_index` rewritten. -/
def align_go {β : Type} (reasons : List (RankingReasons β)) :
    Nat → List Nat → List (RankingReasons β)
  | _, [] => []
  | i, old_index :: rest =>
    match reasons.get? old_index with
    | none => align_go reasons (i + 1) rest
    | some reason => { reason with result_index := i } :: align_go reasons (i + 1) rest

/-- `align_ranking_reasons_to_dedup` from `shared.rs` lines 315-329. -/
def align_ranking_reasons_to_dedup {β : Type}
    (reasons : List (RankingReasons β)) (kept_indices : List Nat) :
    List (RankingReasons β) :=
  align_go reasons 0 kept_indices

/-! ## Symbol store (`codecompass-state/src/symbols.rs`) -/

/-- `SymbolRecord` from `codecompass-core` types, as read back by
`find_symbols_by_location` (the `content` field is dropped on read). -/
structure SymbolRecord where
  repo : String
  ref : String
  commit : Option String
  path : String
  symbol_id : String
  symbol_stable_id : String
  name : String
  qualified_name : String
  kind : String
  language : String
  line_start : Nat
  line_end : Nat
  signature : Option String
  parent_symbol_id : Option String
  visibility : Option String
deriving DecidableEq

/-- `find_symbols_by_location` from `symbols.rs` lines 36-78, with the
`symbol_relations` table modelled as a row list: SQL
`WHERE repo = ?1 AND ref = ?2 AND path = ?3 AND line_start <= ?5 AND
line_end >= ?4` for a query range `?4..?5`. -/
def find_symbols_by_location (table : List SymbolRecord)
    (repo r path : String) (line_start line_end : Nat) : List SymbolRecord :=
  table.filter (fun s =>
    s.repo == repo && s.ref == r && s.path == path &&
      decide (s.line_start ≤ line_end) && decide (line_start ≤ s.line_end))

/-! ## Concrete fixtures used by witnesses and counterexamples -/

/-- A registered project row used in concrete witnesses. -/
def wProject : Project :=
  { project_id := "proj_1", repo_root := "/ws", default_ref := "main" }

/-- A running job row used in concrete witnesses. -/
def wJob : IndexJob :=
  { job_id := "job_1", mode := "incremental", status := "running", ref := "main" }

/-- A branch-state row (last indexed commit `commitA`). -/
def wBranchState : BranchState :=
  { repo := "proj_1", ref := "main", merge_base_commit := none,
    last_indexed_commit := "commitA", overlay_dir := none, file_count := 42,
    created_at := "t0", last_accessed_at := "t1" }

/-- Connection with a running job. -/
def wConnActive : ConnInfo :=
  { branchStates := [wBranchState], activeJob := some wJob,
    projectByRoot := some wProject, projectById := some wProject }

/-- Connection with no active job. -/
def wConnIdle : ConnInfo :=
  { branchStates := [wBranchState], activeJob := none,
    projectByRoot := some wProject, projectById := some wProject }

/-- Environment: active job, HEAD moved to `commitB` on branch `main`. -/
def wEnvActiveStale : Env :=
  { conn := some wConnActive, headBranch := some "main", headCommit := some "commitB" }

/-- Environment: no active job, HEAD moved to `commitB` on branch `main`. -/
def wEnvStale : Env :=
  { conn := some wConnIdle, headBranch := some "main", headCommit := some "commitB" }

/-- Environment with no connection and no VCS probe results. -/
def wEnvNoConn : Env :=
  { conn := none, headBranch := none, headCommit := none }

/-- Environment: registered project, no active job, HEAD at the indexed commit. -/
def wEnvIdle : Env :=
  { conn := some wConnIdle, headBranch := some "main", headCommit := some "commitA" }

/-- A stored symbol row spanning lines 10-25 of `src/lib.rs`. -/
def wSymbol : SymbolRecord :=
  { repo := "my-repo", ref := "main", commit := some "abc123",
    path := "src/lib.rs", symbol_id := "sym_001",
    symbol_stable_id := "stable_001", name := "my_function",
    qualified_name := "crate::my_function", kind := "function",
    language := "rust", line_start := 10, line_end := 25,
    signature := none, parent_symbol_id := none, visibility := some "pub" }

/-- A search hit with stable id `stable1`. -/
def wSearchA : SearchResult :=
  { result_id := "r1", symbol_id := some "sym1",
    symbol_stable_id := some "stable1", result_type := "symbol",
    path := "src/lib.rs", line_start := 10, line_end := 20,
    kind := some "fn", name := some "foo", qualified_name := some "foo",
    language := "rust", signature := none, visibility := none, snippet := none }

/-- A duplicate of `wSearchA` (same stable id, different row). -/
def wSearchB : SearchResult :=
  { wSearchA with
    result_id := "r2",
    symbol_id := some "sym2",
    name := some "foo_dup",
    qualified_name := some "foo_dup" }

/-- A distinct search hit with stable id `stable3`. -/
def wSearchC : SearchResult :=
  { result_id := "r3", symbol_id := some "sym3",
    symbol_stable_id := some "stable3", result_type := "symbol",
    path := "src/main.rs", line_start := 30, line_end := 40,
    kind := some "fn", name := some "bar", qualified_name := some "bar",
    language := "rust", signature := none, visibility := none, snippet := none }

/-- Concrete result list with one stable-id duplicate. -/
def wSearchResults : List SearchResult := [wSearchA, wSearchB, wSearchC]

/-- Ranking reasons for `wSearchResults`, one row per result. -/
def wReasons : List (RankingReasons Unit) :=
  [{ result_index := 0, detail := () }, { result_index := 1, detail := () },
   { result_index := 2, detail := () }]

/-! ## Theorems -/

example : classify_intent "validate_token" = QueryIntent.Symbol := by decide
example : classify_intent "AuthHandler" = QueryIntent.Symbol := by decide
example : classify_intent "src/auth/handler.rs" = QueryIntent.Path := by decide
example : classify_intent "handler.rs" = QueryIntent.Path := by decide
example : classify_intent "error: cannot find module" = QueryIntent.Error := by decide
example : classify_intent "where is rate limiting implemented" = QueryIntent.NaturalLanguage := by decide
example : classify_intent "fn parse" = QueryIntent.Symbol := by decide

/-- C2: `resolve_tool_ref` is deterministic and respects the precedence
explicit `ref` argument, then VCS HEAD branch, then non-empty project
`default_ref`, then the literal `"live"`. -/
theorem resolve_tool_ref_precedence :
    (∀ (r : String) (env : Env) (project_id : String),
      resolve_tool_ref (some r) env project_id = r)
  ∧ (∀ (env : Env) (project_id branch : String),
      env.headBranch = some branch →
      resolve_tool_ref none env project_id = branch)
  ∧ (∀ (env : Env) (project_id : String) (c : ConnInfo) (p : Project),
      env.headBranch = none → env.conn = some c → c.projectById = some p →
      (strTrim p.default_ref).isEmpty = false →
      resolve_tool_ref none env project_id = p.default_ref)
  ∧ (∀ (env : Env) (project_id : String),
      env.headBranch = none →
      (env.conn = none ∨
        ∃ c, env.conn = some c ∧ (c.projectById = none ∨
          ∃ p, c.projectById = some p ∧ (strTrim p.default_ref).isEmpty = true)) →
      resolve_tool_ref none env project_id = "live") := by
  refine ⟨?_, ?_, ?_, ?_⟩
  · intro r env project_id
    rfl
  · intro env project_id branch hb
    simp [resolve_tool_ref, hb]
  · intro env project_id c p hb hc hp hne
    simp [resolve_tool_ref, hb, hc, hp, hne]
  · intro env project_id hb hrest
    rcases hrest with hc | ⟨c, hc, hrest⟩
    · simp [resolve_tool_ref, hb, hc]
    · rcases hrest with hp | ⟨p, hp, hempty⟩
      · simp [resolve_tool_ref, hb, hc, hp]
      · simp [resolve_tool_ref, hb, hc, hp, hempty]

/-- Witness for C2: each precedence level exercised on concrete inputs. -/
theorem resolve_tool_ref_precedence_witness :
    resolve_tool_ref (some "X") wEnvStale "proj_1" = "X"
  ∧ resolve_tool_ref none wEnvStale "proj_1" = "main"
  ∧ resolve_tool_ref none { conn := some wConnIdle, headBranch := none, headCommit := none } "proj_1" = "main"
  ∧ resolve_tool_ref none wEnvNoConn "proj_1" = "live" :=
  ⟨resolve_tool_ref_precedence.1 "X" wEnvStale "proj_1",
   resolve_tool_ref_precedence.2.1 wEnvStale "proj_1" "main" rfl,
   resolve_tool_ref_precedence.2.2.1 _ "proj_1" wConnIdle wProject rfl rfl rfl (by decide),
   resolve_tool_ref_precedence.2.2.2 wEnvNoConn "proj_1" rfl (Or.inl rfl)⟩

/-- C5: `is_ref_stale` is true exactly when a branch-state row exists for
`(project_id, ref)`, the VCS-reported branch equals `ref`, and the VCS HEAD
commit differs from the last indexed commit; an absent connection or a
failed VCS probe yields `false`. -/
theorem is_ref_stale_characterization :
    ∀ (env : Env) (project_id r : String),
      (is_ref_stale env project_id r = true ↔
        ∃ c branch_state head_commit,
          env.conn = some c ∧
          get_branch_state c.branchStates project_id r = some branch_state ∧
          env.headBranch = some r ∧
          env.headCommit = some head_commit ∧
          branch_state.last_indexed_commit ≠ head_commit)
    ∧ (env.conn = none → is_ref_stale env project_id r = false)
    ∧ (env.headBranch = none → is_ref_stale env project_id r = false)
    ∧ (env.headCommit = none → is_ref_stale env project_id r = false)
    ∧ (∀ b, env.headBranch = some b → b ≠ r → is_ref_stale env project_id r = false) := by
  intro env project_id r
  obtain ⟨conn, hbr, hcm⟩ := env
  refine ⟨?_, ?_, ?_, ?_, ?_⟩
  · cases conn with
    | none => simp [is_ref_stale]
    | some c =>
      cases hbs : get_branch_state c.branchStates project_id r with
      | none => simp [is_ref_stale, hbs]
      | some branch_state =>
        cases hbr with
        | none => simp [is_ref_stale, hbs]
        | some head_branch =>
          by_cases heq : head_branch = r
          · subst heq
            cases hcm with
            | none => simp [is_ref_stale, hbs]
            | some head_commit => simp [is_ref_stale, hbs]
          · simp [is_ref_stale, hbs, heq]
  · intro h
    subst h
    simp [is_ref_stale]
  · intro h
    subst h
    cases conn with
    | none => simp [is_ref_stale]
    | some c =>
      cases hbs : get_branch_state c.branchStates project_id r with
      | none => simp [is_ref_stale, hbs]
      | some branch_state => simp [is_ref_stale, hbs]
  · intro h
    subst h
    cases conn with
    | none => simp [is_ref_stale]
    | some c =>
      cases hbs : get_branch_state c.branchStates project_id r with
      | none => simp [is_ref_stale, hbs]
      | some branch_state =>
        cases hbr with
        | none => simp [is_ref_stale, hbs]
        | some head_branch =>
          by_cases heq : head_branch = r
          · subst heq
            simp [is_ref_stale, hbs]
          · simp [is_ref_stale, hbs, heq]
  · intro b hb hne
    subst hb
    cases conn with
    | none => simp [is_ref_stale]
    | some c =>
      cases hbs : get_branch_state c.branchStates project_id r with
      | none => simp [is_ref_stale, hbs]
      | some branch_state => simp [is_ref_stale, hbs, hne]

/-- Witness for C5: a stale configuration reports `true`, an absent
connection reports `false`. -/
theorem is_ref_stale_witness :
    is_ref_stale wEnvStale "proj_1" "main" = true
  ∧ is_ref_stale wEnvNoConn "proj_1" "main" = false :=
  ⟨((is_ref_stale_characterization wEnvStale "proj_1" "main").1).mpr
      ⟨wConnIdle, wBranchState, "commitB", rfl, by decide, rfl, rfl, by decide⟩,
   (is_ref_stale_characterization wEnvNoConn "proj_1" "main").2.1 rfl⟩

/-- C9: with a compatible schema, `build_metadata` reports `Stale` only when
the project has no active job; with an active job the freshness status is
never `Stale`. -/
theorem build_metadata_active_job_never_stale :
    ∀ (env : Env) (project_id r : String),
      has_active_job env project_id = true →
      (build_metadata r SchemaStatus.Compatible env project_id).freshness_status ≠
        FreshnessStatus.Stale := by
  intro env project_id r h
  simp [build_metadata, h, ProtocolMetadata.with_active_job, ProtocolMetadata.protoNew]

/-- Witness for C9: an environment whose index lags HEAD on the current
branch but which has a running job still reports a non-stale freshness. -/
theorem build_metadata_active_job_never_stale_witness :
    has_active_job wEnvActiveStale "proj_1" = true
  ∧ is_ref_stale wEnvActiveStale "proj_1" "main" = true
  ∧ (build_metadata "main" SchemaStatus.Compatible wEnvActiveStale "proj_1").freshness_status ≠
      FreshnessStatus.Stale :=
  ⟨by decide, by decide,
   build_metadata_active_job_never_stale wEnvActiveStale "proj_1" "main" (by decide)⟩

/-- C10: a zero `max_response_bytes` budget is replaced by the default
64 KiB budget, so a zero budget behaves identically to the default. -/
theorem enforce_zero_budget_uses_default :
    ∀ (α : Type) (itemSize : α → Nat) (results : List α),
      enforce_payload_safety_limit itemSize results 0 =
        enforce_payload_safety_limit itemSize results DEFAULT_MAX_RESPONSE_BYTES
    ∧ DEFAULT_MAX_RESPONSE_BYTES = 64 * 1024 := by
  intro α itemSize results
  exact ⟨rfl, rfl⟩

/-- Bounded hex-digit check used by the orchestrator contract. -/
theorem hexDigitChar_mod_isHex (n : Nat) : isHexDigit (hexDigitChar (n % 16)) = true := by
  have h : n % 16 < 16 := Nat.mod_lt _ (by norm_num)
  have hall : ∀ k, k < 16 → isHexDigit (hexDigitChar k) = true := by decide
  exact hall _ h

/-- A rendered job id always has exactly 16 characters. -/
theorem job_id_hex_length (seed : Nat) : (job_id_hex seed).length = 16 := by
  simp [job_id_hex, String.length]

/-- Every character of a rendered job id is a lowercase hex digit. -/
theorem job_id_hex_chars (seed : Nat) :
    ∀ ch ∈ (job_id_hex seed).data, isHexDigit ch = true := by
  intro ch hch
  have h2 : ch ∈ (List.range 16).map
      (fun i => hexDigitChar (seed % 2 ^ 64 / 16 ^ (15 - i) % 16)) := hch
  rw [List.mem_map] at h2
  obtain ⟨i, _, rfl⟩ := h2
  exact hexDigitChar_mod_isHex _

/-- C7: `index_repo` / `sync_repo` checks the registered-project and
active-job preconditions in that order, and on success returns a payload
with a 16-hex-character job id, status `"running"`, mode `"full"` exactly
when `force`, and a spawned child carrying `CODECOMPASS_JOB_ID`. -/
theorem handle_index_or_sync_contract :
    ∀ (tool_name : String) (force_arg : Option Bool) (requested_ref : Option String)
      (env : Env) (workspace project_id : String) (schema_status : SchemaStatus)
      (seed : Nat) (spawn_ok : Bool),
      (is_project_registered env = false →
        ∃ p, handle_index_or_sync tool_name force_arg requested_ref env workspace
            project_id schema_status seed spawn_ok = IndexToolOutcome.errorResp p ∧
          p.code = "project_not_found")
    ∧ (is_project_registered env = true → has_active_job env project_id = true →
        ∃ p, handle_index_or_sync tool_name force_arg requested_ref env workspace
            project_id schema_status seed spawn_ok = IndexToolOutcome.errorResp p ∧
          p.code = "index_in_progress")
    ∧ (is_project_registered env = true → has_active_job env project_id = false →
        spawn_ok = true →
        ∃ cmd metadata,
          handle_index_or_sync tool_name force_arg requested_ref env workspace
              project_id schema_status seed spawn_ok =
            IndexToolOutcome.success (job_id_hex seed) "running"
              (if force_arg.getD false then "full" else "incremental") cmd metadata ∧
          cmd.env_job_id = job_id_hex seed ∧
          (job_id_hex seed).length = 16 ∧
          ∀ ch ∈ (job_id_hex seed).data, isHexDigit ch = true) := by
  intro tool_name force_arg requested_ref env workspace project_id schema_status seed spawn_ok
  refine ⟨?_, ?_, ?_⟩
  · intro h
    refine ⟨{ code := "project_not_found",
              message := "Project is not initialized for this workspace. Run `codecompass init` first.",
              data_remediation := some "codecompass init --path <workspace>",
              data_reason := none,
              data_workspace := some workspace,
              metadata := build_metadata (resolve_tool_ref requested_ref env project_id)
                schema_status env project_id }, ?_, rfl⟩
    simp [handle_index_or_sync, h]
  · intro h1 h2
    refine ⟨{ code := "index_in_progress",
              message := "An indexing job is already running.",
              data_remediation := some "Use index_status to poll and retry after completion.",
              data_reason := none,
              data_workspace := none,
              metadata := build_metadata (resolve_tool_ref requested_ref env project_id)
                schema_status env project_id }, ?_, rfl⟩
    simp [handle_index_or_sync, h1, h2]
  · intro h1 h2 h3
    subst h3
    refine ⟨{ args := ["index", "--path", workspace]
                ++ (if force_arg.getD false then ["--force"] else [])
                ++ ["--ref", resolve_tool_ref requested_ref env project_id],
              env_job_id := job_id_hex seed },
            build_metadata (resolve_tool_ref requested_ref env project_id)
              schema_status env project_id,
            ?_, rfl, job_id_hex_length seed, job_id_hex_chars seed⟩
    simp [handle_index_or_sync, h1, h2]

/-- Witness for C7: an unregistered workspace yields `project_not_found`; a
registered idle project with `force` yields a running full-mode job. -/
theorem handle_index_or_sync_contract_witness :
    (∃ p, handle_index_or_sync "index_repo" none none wEnvNoConn "/ws" "proj_1"
        SchemaStatus.NotIndexed 7 true = IndexToolOutcome.errorResp p ∧
      p.code = "project_not_found")
  ∧ (∃ cmd metadata, handle_index_or_sync "index_repo" (some true) none wEnvIdle
        "/ws" "proj_1" SchemaStatus.Compatible 255 true =
      IndexToolOutcome.success (job_id_hex 255) "running" "full" cmd metadata ∧
      cmd.env_job_id = job_id_hex 255 ∧
      (job_id_hex 255).length = 16 ∧
      ∀ ch ∈ (job_id_hex 255).data, isHexDigit ch = true) :=
  ⟨(handle_index_or_sync_contract "index_repo" none none wEnvNoConn "/ws" "proj_1"
      SchemaStatus.NotIndexed 7 true).1 (by decide),
   (handle_index_or_sync_contract "index_repo" (some true) none wEnvIdle "/ws" "proj_1"
      SchemaStatus.Compatible 255 true).2.2 (by decide) (by decide) rfl⟩

/-- Invariants of the `enforce_payload_safety_limit` loop after the first
item has been emitted (`isFirst = false`): the output is a prefix of the
remaining input, the truncated flag is set exactly when something was
dropped, and a non-empty output keeps `used` plus item sizes plus one
separator per item within the budget. -/
theorem enforce_go_false_spec {α : Type} (itemSize : α → Nat) (maxB : Nat) :
    ∀ (l : List α) (used : Nat),
      (∃ rest, l = (enforce_go itemSize maxB l used false).1 ++ rest)
    ∧ ((enforce_go itemSize maxB l used false).2 = true ↔
        (enforce_go itemSize maxB l used false).1.length < l.length)
    ∧ ((enforce_go itemSize maxB l used false).1 ≠ [] →
        used + ((enforce_go itemSize maxB l used false).1.map itemSize).sum
          + (enforce_go itemSize maxB l used false).1.length ≤ maxB) := by
  intro l
  induction l with
  | nil =>
    intro used
    exact ⟨⟨[], rfl⟩, by simp [enforce_go], by simp [enforce_go]⟩
  | cons a tl ih =>
    intro used
    by_cases h : maxB < used + 1 + itemSize a
    · have hgo : enforce_go itemSize maxB (a :: tl) used false = ([], true) := by
        simp [enforce_go, h]
      refine ⟨⟨a :: tl, by rw [hgo]; rfl⟩, ?_, ?_⟩
      · rw [hgo]
        simp
      · rw [hgo]
        simp
    · have hgo : enforce_go itemSize maxB (a :: tl) used false =
          (a :: (enforce_go itemSize maxB tl (used + 1 + itemSize a) false).1,
            (enforce_go itemSize maxB tl (used + 1 + itemSize a) false).2) := by
        simp [enforce_go, h]
      obtain ⟨⟨rest, hrest⟩, hiff, hbound⟩ := ih (used + 1 + itemSize a)
      refine ⟨⟨rest, ?_⟩, ?_, ?_⟩
      · rw [hgo]
        rw [List.cons_append, ← hrest]
      · rw [hgo]
        simp only [List.length_cons]
        rw [hiff]
        omega
      · rw [hgo]
        intro _
        simp only [List.map_cons, List.sum_cons, List.length_cons]
        by_cases hr : (enforce_go itemSize maxB tl (used + 1 + itemSize a) false).1 = []
        · rw [hr]
          simp only [List.map_nil, List.sum_nil, List.length_nil]
          omega
        · have hb := hbound hr
          omega

/-- Invariants of the initial `enforce_payload_safety_limit` loop call
(`isFirst = true`, no separator before the first item): prefix, the
truncated flag exactly on drops, and the budget bound with one separator
between consecutive items. -/
theorem enforce_go_true_spec {α : Type} (itemSize : α → Nat) (maxB : Nat)
    (l : List α) (used : Nat) :
      (∃ rest, l = (enforce_go itemSize maxB l used true).1 ++ rest)
    ∧ ((enforce_go itemSize maxB l used true).2 = true ↔
        (enforce_go itemSize maxB l used true).1.length < l.length)
    ∧ ((enforce_go itemSize maxB l used true).1 ≠ [] →
        used + ((enforce_go itemSize maxB l used true).1.map itemSize).sum
          + ((enforce_go itemSize maxB l used true).1.length - 1) ≤ maxB) := by
  cases l with
  | nil => exact ⟨⟨[], rfl⟩, by simp [enforce_go], by simp [enforce_go]⟩
  | cons a tl =>
    by_cases h : maxB < used + 0 + itemSize a
    · have hgo : enforce_go itemSize maxB (a :: tl) used true = ([], true) := by
        simp [enforce_go]
        omega
      refine ⟨⟨a :: tl, by rw [hgo]; rfl⟩, ?_, ?_⟩
      · rw [hgo]
        simp
      · rw [hgo]
        simp
    · have hgo : enforce_go itemSize maxB (a :: tl) used true =
          (a :: (enforce_go itemSize maxB tl (used + 0 + itemSize a) false).1,
            (enforce_go itemSize maxB tl (used + 0 + itemSize a) false).2) := by
        simp [enforce_go]
        omega
      obtain ⟨⟨rest, hrest⟩, hiff, hbound⟩ :=
        enforce_go_false_spec itemSize maxB tl (used + 0 + itemSize a)
      refine ⟨⟨rest, ?_⟩, ?_, ?_⟩
      · rw [hgo]
        rw [List.cons_append, ← hrest]
      · rw [hgo]
        simp only [List.length_cons]
        rw [hiff]
        omega
      · rw [hgo]
        intro _
        simp only [List.map_cons, List.sum_cons, List.length_cons]
        by_cases hr : (enforce_go itemSize maxB tl (used + 0 + itemSize a) false).1 = []
        · rw [hr]
          simp only [List.map_nil, List.sum_nil, List.length_nil]
          omega
        · have hb := hbound hr
          omega

/-- The final empty-and-truncated special case of
`enforce_payload_safety_limit` returns the same value the loop produced, so
the function equals its loop on the effective budget. -/
theorem enforce_eq_go {α : Type} (itemSize : α → Nat) (results : List α)
    (max_bytes : Nat) :
    enforce_payload_safety_limit itemSize results max_bytes =
      enforce_go itemSize
        (if max_bytes == 0 then DEFAULT_MAX_RESPONSE_BYTES else max_bytes)
        results 2 true := by
  unfold enforce_payload_safety_limit
  by_cases h : ((enforce_go itemSize
      (if max_bytes == 0 then DEFAULT_MAX_RESPONSE_BYTES else max_bytes)
      results 2 true).1.isEmpty &&
    (enforce_go itemSize
      (if max_bytes == 0 then DEFAULT_MAX_RESPONSE_BYTES else max_bytes)
      results 2 true).2) = true
  · rw [if_pos h]
    obtain ⟨h1, h2⟩ := Bool.and_eq_true_iff.mp h
    rw [List.isEmpty_iff] at h1
    rw [Prod.ext_iff]
    exact ⟨h1.symm, h2.symm⟩
  · rw [if_neg h]

/-- C3 (amended): for every result list and byte budget, with a zero budget
first replaced by the 64 KiB default, the payload-safety step returns a
prefix of the list whose total JSON length (items plus separators) does not
exceed the effective budget, and the `safety_limit_applied` flag is true
exactly when at least one result was dropped; an empty returned list with
the flag set is a legal outcome under extreme limits (witnessed by the
closed final conjunct). -/
theorem enforce_payload_safety_limit_spec :
    (∀ (α : Type) (itemSize : α → Nat) (results : List α) (max_bytes : Nat),
      (∃ rest, results = (enforce_payload_safety_limit itemSize results max_bytes).1 ++ rest)
    ∧ list_json_size itemSize (enforce_payload_safety_limit itemSize results max_bytes).1 ≤
        (if max_bytes == 0 then DEFAULT_MAX_RESPONSE_BYTES else max_bytes)
    ∧ ((enforce_payload_safety_limit itemSize results max_bytes).2 = true ↔
        (enforce_payload_safety_limit itemSize results max_bytes).1.length < results.length))
  ∧ enforce_payload_safety_limit (fun n : Nat => n) [1] 1 = ([], true) := by
  constructor
  · intro α itemSize results max_bytes
    rw [enforce_eq_go]
    obtain ⟨hpre, hiff, hbound⟩ := enforce_go_true_spec itemSize
      (if max_bytes == 0 then DEFAULT_MAX_RESPONSE_BYTES else max_bytes) results 2
    refine ⟨hpre, ?_, hiff⟩
    by_cases hr : (enforce_go itemSize
        (if max_bytes == 0 then DEFAULT_MAX_RESPONSE_BYTES else max_bytes)
        results 2 true).1 = []
    · rw [hr]
      simp [list_json_size]
    · have hb := hbound hr
      unfold list_json_size
      omega
  · rfl

/-- Counterexample to C3 as stated: with `max_response_bytes = 0` the code
substitutes the 64 KiB default, so a 10-byte result is returned even though
the stated budget is zero and the total JSON length exceeds it. -/
theorem enforce_payload_zero_budget_cex :
    (enforce_payload_safety_limit (fun n : Nat => n) [10] 0).1 = [10]
  ∧ ¬ list_json_size (fun n : Nat => n)
      (enforce_payload_safety_limit (fun n : Nat => n) [10] 0).1 ≤ 0 := by
  constructor
  · rfl
  · decide

/-- C8: the overlap query returns exactly the stored symbols with the given
`(repo, ref, path)` whose line range satisfies
`line_start ≤ Q.end ∧ line_end ≥ Q.start`, and under the invariants
`line_start ≤ line_end` and `Q.start ≤ Q.end` this predicate is interval
overlap. -/
theorem find_symbols_by_location_spec :
    ∀ (table : List SymbolRecord) (repo r path : String) (qs qe : Nat)
      (s : SymbolRecord),
      (s ∈ find_symbols_by_location table repo r path qs qe ↔
        s ∈ table ∧ s.repo = repo ∧ s.ref = r ∧ s.path = path ∧
          s.line_start ≤ qe ∧ qs ≤ s.line_end)
    ∧ (s.line_start ≤ s.line_end → qs ≤ qe →
        ((s.line_start ≤ qe ∧ qs ≤ s.line_end) ↔
          ∃ x, s.line_start ≤ x ∧ x ≤ s.line_end ∧ qs ≤ x ∧ x ≤ qe)) := by
  intro table repo r path qs qe s
  constructor
  · simp [find_symbols_by_location, List.mem_filter, Bool.and_eq_true,
      decide_eq_true_eq, beq_iff_eq, and_assoc]
  · intro h1 h2
    constructor
    · rintro ⟨ha, hb⟩
      exact ⟨max s.line_start qs, le_max_left _ _, by omega, le_max_right _ _, by omega⟩
    · rintro ⟨x, hx1, hx2, hx3, hx4⟩
      exact ⟨by omega, by omega⟩

/-- Witness for C8: the sample row is returned for the overlapping query
range 15-20, and the overlap characterisation holds for it there. -/
theorem find_symbols_by_location_spec_witness :
    wSymbol ∈ find_symbols_by_location [wSymbol] "my-repo" "main" "src/lib.rs" 15 20
  ∧ ((wSymbol.line_start ≤ 20 ∧ 15 ≤ wSymbol.line_end) ↔
      ∃ x, wSymbol.line_start ≤ x ∧ x ≤ wSymbol.line_end ∧ 15 ≤ x ∧ x ≤ 20) :=
  ⟨(find_symbols_by_location_spec [wSymbol] "my-repo" "main" "src/lib.rs" 15 20
      wSymbol).1.mpr ⟨by decide, rfl, rfl, rfl, by decide, by decide⟩,
   (find_symbols_by_location_spec [wSymbol] "my-repo" "main" "src/lib.rs" 15 20
      wSymbol).2 (by decide) (by decide)⟩

/-- `List.all` congruence: pointwise equal predicates give equal results. -/
theorem all_congr_chars : ∀ (l : List Char) (f g : Char → Bool),
    (∀ c ∈ l, f c = g c) → l.all f = l.all g := by
  intro l f g h
  induction l with
  | nil => rfl
  | cons c t ih =>
    simp only [List.all_cons]
    rw [h c (by simp), ih (fun x hx => h x (by simp [hx]))]

/-- The single-word alphanumeric-or-underscore test of `is_symbol_query`
agrees with the claim's plain alphanumeric wording because a word containing
an underscore is already accepted by the underscore rule. -/
theorem is_symbol_query_eq_spec (q : String) :
    is_symbol_query q = symbol_rule_spec q := by
  simp only [is_symbol_query, symbol_rule_spec]
  cases hw : splitWhitespace q with
  | nil => rfl
  | cons w rest =>
    cases rest with
    | nil =>
      simp only [List.length_cons, List.length_nil, List.headD_cons]
      by_cases hu : strContainsChar w '_' = true
      · simp [hu]
      · have hu' : strContainsChar w '_' = false := by
          cases hb : strContainsChar w '_' with
          | false => rfl
          | true => exact absurd hb hu
        have hu2 : w.data.any (fun x => x == '_') = false := hu'
        have hc : ∀ c ∈ w.data,
            ((fun c => c.isAlphanum || c == '_') c) = ((fun c => c.isAlphanum) c) := by
          intro c hcmem
          cases hbc : (c == '_') with
          | false => simp [hbc]
          | true =>
            have : w.data.any (fun x => x == '_') = true :=
              List.any_eq_true.mpr ⟨c, hcmem, hbc⟩
            rw [this] at hu2
            exact Bool.noConfusion hu2
        have hall := all_congr_chars w.data _ _ hc
        simp [hu', hall, Bool.or_assoc]
    | cons w2 rest2 =>
      cases rest2 with
      | nil => simp
      | cons w3 rest3 =>
        have h1 : ((w :: w2 :: w3 :: rest3).length == 1) = false := rfl
        have h2 : ((w :: w2 :: w3 :: rest3).length == 2) = false := rfl
        simp [h1, h2]

/-- C6: `classify_intent` applies the claim's rules with precedence Path,
then Error, then Symbol, then NaturalLanguage. -/
theorem classify_intent_matches_spec :
    ∀ (query : String), classify_intent query = classify_intent_spec query := by
  intro query
  simp only [classify_intent, classify_intent_spec]
  rw [is_symbol_query_eq_spec]
  rfl

/-- Dedup-loop key invariant: every kept result has a key outside `seen`,
and kept results have pairwise distinct keys. -/
theorem dedup_go_keys : ∀ (l : List SearchResult) (seen : List String) (i : Nat),
    (∀ r ∈ (dedup_go seen i l).1, search_result_key r ∉ seen)
  ∧ (dedup_go seen i l).1.Pairwise
      (fun a b => search_result_key a ≠ search_result_key b) := by
  intro l
  induction l with
  | nil =>
    intro seen i
    constructor <;> simp [dedup_go]
  | cons r rest ih =>
    intro seen i
    by_cases h : search_result_key r ∈ seen
    · have hgo : (dedup_go seen i (r :: rest)).1 = (dedup_go seen (i + 1) rest).1 := by
        simp [dedup_go, h]
      obtain ⟨ha, hb⟩ := ih seen (i + 1)
      rw [hgo]
      exact ⟨ha, hb⟩
    · have hgo : (dedup_go seen i (r :: rest)).1 =
          r :: (dedup_go (search_result_key r :: seen) (i + 1) rest).1 := by
        simp [dedup_go, h]
      obtain ⟨ha, hb⟩ := ih (search_result_key r :: seen) (i + 1)
      rw [hgo]
      constructor
      · intro x hx
        rcases List.mem_cons.mp hx with hx0 | hx'
        · rw [hx0]
          exact h
        · intro hmem
          exact ha x hx' (List.mem_cons_of_mem _ hmem)
      · refine List.Pairwise.cons ?_ hb
        intro x hx heq
        exact ha x hx (by rw [← heq]; exact List.mem_cons_self _ _)

/-- Dedup-loop index invariant: kept original indices are at least the
running index and strictly increasing. -/
theorem dedup_go_kept_sorted : ∀ (l : List SearchResult) (seen : List String) (i : Nat),
    (∀ j ∈ (dedup_go seen i l).2.1, i ≤ j)
  ∧ (dedup_go seen i l).2.1.Pairwise (· < ·) := by
  intro l
  induction l with
  | nil =>
    intro seen i
    constructor <;> simp [dedup_go]
  | cons r rest ih =>
    intro seen i
    by_cases h : search_result_key r ∈ seen
    · have hgo : (dedup_go seen i (r :: rest)).2.1 = (dedup_go seen (i + 1) rest).2.1 := by
        simp [dedup_go, h]
      obtain ⟨ha, hb⟩ := ih seen (i + 1)
      rw [hgo]
      exact ⟨fun j hj => le_trans (Nat.le_succ i) (ha j hj), hb⟩
    · have hgo : (dedup_go seen i (r :: rest)).2.1 =
          i :: (dedup_go (search_result_key r :: seen) (i + 1) rest).2.1 := by
        simp [dedup_go, h]
      obtain ⟨ha, hb⟩ := ih (search_result_key r :: seen) (i + 1)
      rw [hgo]
      constructor
      · intro j hj
        rcases List.mem_cons.mp hj with hj0 | hj'
        · omega
        · exact le_trans (Nat.le_succ i) (ha j hj')
      · exact List.Pairwise.cons (fun x hx => lt_of_lt_of_le (Nat.lt_succ_self i) (ha x hx)) hb

/-- Dedup-loop count invariant: kept plus suppressed equals the input length. -/
theorem dedup_go_count : ∀ (l : List SearchResult) (seen : List String) (i : Nat),
    (dedup_go seen i l).1.length + (dedup_go seen i l).2.2 = l.length := by
  intro l
  induction l with
  | nil =>
    intro seen i
    simp [dedup_go]
  | cons r rest ih =>
    intro seen i
    by_cases h : search_result_key r ∈ seen
    · have h1 : (dedup_go seen i (r :: rest)).1 = (dedup_go seen (i + 1) rest).1 := by
        simp [dedup_go, h]
      have h2 : (dedup_go seen i (r :: rest)).2.2 = (dedup_go seen (i + 1) rest).2.2 + 1 := by
        simp [dedup_go, h]
      have := ih seen (i + 1)
      rw [h1, h2]
      simp only [List.length_cons]
      omega
    · have h1 : (dedup_go seen i (r :: rest)).1 =
          r :: (dedup_go (search_result_key r :: seen) (i + 1) rest).1 := by
        simp [dedup_go, h]
      have h2 : (dedup_go seen i (r :: rest)).2.2 =
          (dedup_go (search_result_key r :: seen) (i + 1) rest).2.2 := by
        simp [dedup_go, h]
      have := ih (search_result_key r :: seen) (i + 1)
      rw [h1, h2]
      simp only [List.length_cons]
      omega

/-- When every kept index is outside `reasons`, alignment produces nothing. -/
theorem align_go_nil_of_big {β : Type} (reasons : List (RankingReasons β)) :
    ∀ (kept : List Nat) (i : Nat), (∀ k ∈ kept, reasons.length ≤ k) →
      align_go reasons i kept = [] := by
  intro kept
  induction kept with
  | nil =>
    intro i _
    rfl
  | cons k rest ih =>
    intro i h
    have hk : reasons.get? k = none :=
      List.get?_eq_none.mpr (h k (by simp))
    have hk2 : reasons[k]? = none := by
      rw [← List.get?_eq_getElem?]
      exact hk
    have hrest := ih (i + 1) (fun x hx => h x (by simp [hx]))
    simp [align_go, hk2, hrest]

/-- For strictly increasing kept indices, the `j`-th aligned ranking reason
carries `result_index = i + j`. -/
theorem align_go_get_eq {β : Type} (reasons : List (RankingReasons β)) :
    ∀ (kept : List Nat) (i : Nat), kept.Pairwise (· < ·) →
      ∀ (j : Nat) (x : RankingReasons β),
        (align_go reasons i kept).get? j = some x → x.result_index = i + j := by
  intro kept
  induction kept with
  | nil =>
    intro i _ j x hx
    simp [align_go] at hx
  | cons k rest ih =>
    intro i hp j x hx
    obtain ⟨hhead, htail⟩ := List.pairwise_cons.mp hp
    cases hg : reasons.get? k with
    | none =>
      have hg2 : reasons[k]? = none := by
        rw [← List.get?_eq_getElem?]
        exact hg
      have hlen : reasons.length ≤ k := List.get?_eq_none.mp hg
      have hnil : align_go reasons (i + 1) rest = [] :=
        align_go_nil_of_big reasons rest (i + 1)
          (fun y hy => le_trans hlen (le_of_lt (hhead y hy)))
      rw [show align_go reasons i (k :: rest) = align_go reasons (i + 1) rest by
        simp [align_go, hg2]] at hx
      rw [hnil] at hx
      simp at hx
    | some reason =>
      have hg2 : reasons[k]? = some reason := by
        rw [← List.get?_eq_getElem?]
        exact hg
      rw [show align_go reasons i (k :: rest) =
          { reason with result_index := i } :: align_go reasons (i + 1) rest by
        simp [align_go, hg2]] at hx
      cases j with
      | zero =>
        simp only [List.get?_cons_zero, Option.some.injEq] at hx
        rw [← hx]
        simp
      | succ j' =>
        simp only [List.get?_cons_succ] at hx
        have := ih (i + 1) htail j' x hx
        omega

/-- A present non-empty stable id fixes the dedup key to `stable:` + id. -/
theorem search_result_key_stable {r : SearchResult} {s : String}
    (h : r.symbol_stable_id = some s) (hne : s ≠ "") :
    search_result_key r = "stable:" ++ s := by
  simp [search_result_key, h, hne]

/-- C4: after dedup, no two surviving results share the same non-empty
`symbol_stable_id`; after re-alignment every surviving ranking-reason row
at position `j` carries `result_index = j`; and kept plus suppressed counts
add up to the input length. -/
theorem dedup_search_results_spec :
    ∀ (results : List SearchResult) (β : Type) (reasons : List (RankingReasons β)),
      (∀ (i j : Nat) (a b : SearchResult) (s : String),
        (dedup_search_results results).1.get? i = some a →
        (dedup_search_results results).1.get? j = some b →
        a.symbol_stable_id = some s → b.symbol_stable_id = some s → s ≠ "" →
        i = j)
    ∧ (∀ (j : Nat) (x : RankingReasons β),
        (align_ranking_reasons_to_dedup reasons
          (dedup_search_results results).2.1).get? j = some x →
        x.result_index = j)
    ∧ (dedup_search_results results).1.length + (dedup_search_results results).2.2
        = results.length := by
  intro results β reasons
  refine ⟨?_, ?_, ?_⟩
  · intro i j a b s ha hb hsa hsb hne
    by_contra hij
    have hp : (dedup_search_results results).1.Pairwise
        (fun a b => search_result_key a ≠ search_result_key b) :=
      (dedup_go_keys results [] 0).2
    obtain ⟨hi, hgi⟩ := List.get?_eq_some.mp ha
    obtain ⟨hj, hgj⟩ := List.get?_eq_some.mp hb
    have hkey : search_result_key a = search_result_key b := by
      rw [search_result_key_stable hsa hne, search_result_key_stable hsb hne]
    rcases Nat.lt_or_ge i j with hlt | hge
    · have hr := List.pairwise_iff_get.mp hp ⟨i, hi⟩ ⟨j, hj⟩ hlt
      rw [hgi, hgj] at hr
      exact hr hkey
    · have hlt2 : j < i := lt_of_le_of_ne hge (Ne.symm hij)
      have hr := List.pairwise_iff_get.mp hp ⟨j, hj⟩ ⟨i, hi⟩ hlt2
      rw [hgi, hgj] at hr
      exact hr hkey.symm
  · intro j x hx
    have hsorted : (dedup_search_results results).2.1.Pairwise (· < ·) :=
      (dedup_go_kept_sorted results [] 0).2
    have := align_go_get_eq reasons _ 0 hsorted j x hx
    simpa using this
  · exact dedup_go_count results [] 0

/-- Witness for C4: on the concrete duplicate list the first kept result is
`wSearchA`, the aligned ranking row at position 1 carries index 1, and
2 kept + 1 suppressed = 3. -/
theorem dedup_search_results_spec_witness :
    (dedup_search_results wSearchResults).1.get? 0 = some wSearchA
  ∧ (0 : Nat) = 0
  ∧ (∃ x : RankingReasons Unit,
      (align_ranking_reasons_to_dedup wReasons
        (dedup_search_results wSearchResults).2.1).get? 1 = some x ∧
      x.result_index = 1)
  ∧ (dedup_search_results wSearchResults).1.length +
      (dedup_search_results wSearchResults).2.2 = 3 := by
  refine ⟨by decide, ?_, ?_, ?_⟩
  · exact (dedup_search_results_spec wSearchResults Unit wReasons).1 0 0
      wSearchA wSearchA "stable1" (by decide) (by decide) rfl rfl (by decide)
  · refine ⟨{ result_index := 1, detail := () }, by decide, ?_⟩
    exact (dedup_search_results_spec wSearchResults Unit wReasons).2.1 1 _ (by decide)
  · exact (dedup_search_results_spec wSearchResults Unit wReasons).2.2

/-- C1 (amended): for a query-tool request whose schema status is not
`Compatible`, the payload carries `index_incompatible` with the remediation
keyed by the loader's classification whenever the project is registered or
the status is not `NotIndexed`; a `NotIndexed` status always yields
`metadata.index_status = "not_indexed"`; a fresh workspace (`NotIndexed`
and no registered project) instead yields `project_not_found`; and the
query-tool gate returns this payload for both query tools. -/
theorem tool_compatibility_error_classification :
    ∀ (schema_status : SchemaStatus) (compatibility_reason : Option String)
      (env : Env) (workspace project_id ref_name : String),
      schema_status ≠ SchemaStatus.Compatible →
      ((is_project_registered env = true ∨ schema_status ≠ SchemaStatus.NotIndexed) →
        (tool_compatibility_error schema_status compatibility_reason env
            workspace project_id ref_name).code = "index_incompatible" ∧
        (tool_compatibility_error schema_status compatibility_reason env
            workspace project_id ref_name).data_remediation =
          some (loader_remediation schema_status))
    ∧ (schema_status = SchemaStatus.NotIndexed →
        (tool_compatibility_error schema_status compatibility_reason env
            workspace project_id ref_name).metadata.index_status = "not_indexed")
    ∧ (schema_status = SchemaStatus.NotIndexed → is_project_registered env = false →
        (tool_compatibility_error schema_status compatibility_reason env
            workspace project_id ref_name).code = "project_not_found")
    ∧ (∀ has_index_set : Bool,
        query_tool_gate has_index_set schema_status compatibility_reason env
            workspace project_id ref_name =
          some (tool_compatibility_error schema_status compatibility_reason env
            workspace project_id ref_name)) := by
  intro schema_status compatibility_reason env workspace project_id ref_name hne
  cases schema_status with
  | Compatible => exact absurd rfl hne
  | NotIndexed =>
    cases hreg : is_project_registered env with
    | false =>
      refine ⟨?_, ?_, ?_, ?_⟩
      · rintro (h | h)
        · exact Bool.noConfusion h
        · exact absurd rfl h
      · intro _
        simp [tool_compatibility_error, hreg, build_metadata,
          ProtocolMetadata.not_indexed]
      · intro _ _
        simp [tool_compatibility_error, hreg]
      · intro has_index_set
        cases has_index_set <;> simp [query_tool_gate]
    | true =>
      refine ⟨?_, ?_, ?_, ?_⟩
      · intro _
        constructor
        · simp [tool_compatibility_error, hreg]
        · simp [tool_compatibility_error, hreg, loader_remediation]
      · intro _
        simp [tool_compatibility_error, hreg, build_metadata,
          ProtocolMetadata.not_indexed]
      · intro _ hf
        exact Bool.noConfusion hf
      · intro has_index_set
        cases has_index_set <;> simp [query_tool_gate]
  | ReindexRequired =>
    refine ⟨?_, ?_, ?_, ?_⟩
    · intro _
      constructor
      · simp [tool_compatibility_error]
      · simp [tool_compatibility_error, loader_remediation]
    · intro h
      exact SchemaStatus.noConfusion h
    · intro h
      exact SchemaStatus.noConfusion h
    · intro has_index_set
      cases has_index_set <;> simp [query_tool_gate]
  | CorruptManifest =>
    refine ⟨?_, ?_, ?_, ?_⟩
    · intro _
      constructor
      · simp [tool_compatibility_error]
      · simp [tool_compatibility_error, loader_remediation]
    · intro h
      exact SchemaStatus.noConfusion h
    · intro h
      exact SchemaStatus.noConfusion h
    · intro has_index_set
      cases has_index_set <;> simp [query_tool_gate]

/-- Counterexample to C1 as stated: on a fresh workspace (no index, no
registered project) the query-tool error code is `project_not_found`, not
`index_incompatible` — though `metadata.index_status` is `"not_indexed"`. -/
theorem tool_compatibility_error_fresh_workspace_cex :
    (tool_compatibility_error SchemaStatus.NotIndexed
        (some "No index found. Run `codecompass index`.") wEnvNoConn
        "/ws" "proj_1" "live").code = "project_not_found"
  ∧ (tool_compatibility_error SchemaStatus.NotIndexed
        (some "No index found. Run `codecompass index`.") wEnvNoConn
        "/ws" "proj_1" "live").code ≠ "index_incompatible"
  ∧ (tool_compatibility_error SchemaStatus.NotIndexed
        (some "No index found. Run `codecompass index`.") wEnvNoConn
        "/ws" "proj_1" "live").metadata.index_status = "not_indexed" := by
  refine ⟨rfl, ?_, rfl⟩
  decide

/-- Witness for C1: a registered workspace with a `ReindexRequired` index
gets `index_incompatible` with the loader-keyed remediation; a registered
`NotIndexed` workspace reports `metadata.index_status = "not_indexed"` and
the gate returns the payload. -/
theorem tool_compatibility_error_classification_witness :
    (tool_compatibility_error SchemaStatus.ReindexRequired
        (some "Index schema is incompatible (current=1, required=2).")
        wEnvIdle "/ws" "proj_1" "live").code = "index_incompatible"
  ∧ (tool_compatibility_error SchemaStatus.ReindexRequired
        (some "Index schema is incompatible (current=1, required=2).")
        wEnvIdle "/ws" "proj_1" "live").data_remediation =
      some (loader_remediation SchemaStatus.ReindexRequired)
  ∧ (tool_compatibility_error SchemaStatus.NotIndexed none wEnvIdle
        "/ws" "proj_1" "live").metadata.index_status = "not_indexed"
  ∧ query_tool_gate false SchemaStatus.NotIndexed none wEnvIdle
        "/ws" "proj_1" "live" =
      some (tool_compatibility_error SchemaStatus.NotIndexed none wEnvIdle
        "/ws" "proj_1" "live") :=
  ⟨((tool_compatibility_error_classification SchemaStatus.ReindexRequired
      (some "Index schema is incompatible (current=1, required=2).")
      wEnvIdle "/ws" "proj_1" "live" (by decide)).1 (Or.inr (by decide))).1,
   ((tool_compatibility_error_classification SchemaStatus.ReindexRequired
      (some "Index schema is incompatible (current=1, required=2).")
      wEnvIdle "/ws" "proj_1" "live" (by decide)).1 (Or.inr (by decide))).2,
   (tool_compatibility_error_classification SchemaStatus.NotIndexed none
      wEnvIdle "/ws" "proj_1" "live" (by decide)).2.1 rfl,
   (tool_compatibility_error_classification SchemaStatus.NotIndexed none
      wEnvIdle "/ws" "proj_1" "live" (by decide)).2.2.2 false⟩
